import Mathlib

/-!
Shallow embedding of the upload-ingestion and persistence path of
PurritoBin (src/purrito.cc): the chunk accumulator registered by
`read_paste` (the `onData` lambda), the paste store `save_buffer`, and
the slug generator `random_slug`.

Body fragments are modelled as lists of bytes (`List UInt8`), the
session buffer as a `List UInt8` of length `max_chars + 1` whose initial
contents are arbitrary (malloc returns uninitialized memory), and the
process-wide random source `rng` as a stream `Nat → Nat` giving the
value of the i-th call to `rng()`.  Machine integers are modelled as
exact integers: `max_chars - *read_count` is a `uint32_t` subtraction
fed to `std::min<int>`, which coincides with exact `Int` arithmetic as
long as `read_count ≤ max_chars < 2^31` (the invariant proved below
keeps `read_count ≤ max_chars`).
-/

namespace Purrito

/-- Process-wide immutable configuration.  Modelled from the spec:
the struct `purrito_settings` lives in `purrito.h`, which is not part of
the sources; the spec lists its fields as `max_paste_size`, `slug_size`,
`storage_directory`, `domain`, `bind_port`. -/
structure purrito_settings where
  max_paste_size : Nat
  slug_size : Nat
  storage_directory : String
  domain : String
  bind_port : Nat
deriving DecidableEq, Repr

/-- One upload session: the malloc'd buffer of `max_chars + 1` bytes and
the heap-allocated `*read_count` counter. -/
structure Session where
  buffer : List UInt8
  read_count : Nat
deriving DecidableEq, Repr

/-- The alphabet used by `random_slug`:
`std::string alphanum = "0123456789abcdefghijklmnopqrstuvwxyz"`. -/
def alphanum : List Char := "0123456789abcdefghijklmnopqrstuvwxyz".data

/-- `random_slug(slug_size)`: for `i = 0 .. slug_size - 1` set
`rslug[i] = alphanum[rng() % len]` with `len = alphanum.size()`, then
build a string from the NUL-terminated result.  The i-th call of the
random source is `rng i`; indexing `alphanum[·]` is total because the
index is reduced mod `len`. -/
def random_slug (slug_size : Nat) (rng : Nat → Nat) : String :=
  String.mk ((List.range slug_size).map fun i =>
    alphanum.getD (rng i % alphanum.length) '0')

/-- Result of one `save_buffer` call: the path that was opened, the
bytes actually written to it, whether the warning was emitted, and the
returned response body. -/
structure SaveResult where
  file_path : String
  written : List UInt8
  warned : Bool
  response : String
deriving DecidableEq, Repr

/-- `save_buffer(buffer, settings)`: draws a slug, opens
`storage_directory/slug` for writing and writes the buffer with
`fprintf(output_file, "%s", buffer)` — which emits the bytes of
`buffer` strictly before its first NUL byte.  `write_err` is the status
returned by the underlying `fprintf`; a negative status only triggers
the warning.  Returns `settings.domain + slug + "\n"` unconditionally. -/
def save_buffer (buffer : List UInt8) (settings : purrito_settings)
    (rng : Nat → Nat) (write_err : Int) : SaveResult :=
  let slug := random_slug settings.slug_size rng
  { file_path := settings.storage_directory ++ "/" ++ slug
  , written := buffer.takeWhile (fun b => b != 0)
  , warned := decide (write_err < 0)
  , response := settings.domain ++ slug ++ "\n" }

/-- The copy size computed by the `onData` lambda:
`std::max<int>(0, std::min<int>(max_chars - *read_count, chunk.size()))`. -/
def copy_size (max_chars read_count chunk_len : Nat) : Nat :=
  (max 0 (min ((max_chars : Int) - (read_count : Int)) (chunk_len : Int))).toNat

/-- `chunk.copy(buffer + read_count, csz)`: overwrite `csz` bytes of
`buffer` starting at offset `read_count` with the first `csz` bytes of
`chunk`; everything else is untouched. -/
def copyInto (buffer : List UInt8) (read_count : Nat) (chunk : List UInt8)
    (csz : Nat) : List UInt8 :=
  buffer.take read_count ++ chunk.take csz ++ buffer.drop (read_count + csz)

/-- One invocation of the `onData` lambda of `read_paste` on fragment
`chunk` with last-fragment flag `is_last`.  It copies
`copy_size` bytes of `chunk` into the buffer at offset `*read_count`
(`chunk.copy(buffer + *read_count, copy_size)`); only under
`if (is_last)` does it advance `*read_count`, and then (under the inner
`if (is_last || *read_count == max_chars)`, whose second disjunct is
dead code) NUL-terminates the buffer and hands it to `save_buffer`.
The second component is `some buf` exactly when `save_buffer` was called
on `buf` (and the response sent via `res->end`). -/
def onData (max_chars : Nat) (s : Session) (chunk : List UInt8)
    (is_last : Bool) : Session × Option (List UInt8) :=
  let csz := copy_size max_chars s.read_count chunk.length
  let buf := copyInto s.buffer s.read_count chunk csz
  if is_last then
    let rc := csz + s.read_count
    if is_last || rc == max_chars then
      let buf2 := buf.set rc 0
      ({ buffer := buf2, read_count := rc }, some buf2)
    else
      ({ buffer := buf, read_count := rc }, none)
  else
    ({ buffer := buf, read_count := s.read_count }, none)

/-- Deliver a trace of fragments (each tagged with its `is_last` flag)
to a session in order, collecting every buffer that was handed to
`save_buffer`. -/
def runTrace (max_chars : Nat) (s : Session) :
    List (List UInt8 × Bool) → Session × List (List UInt8)
  | [] => (s, [])
  | (chunk, fin) :: rest =>
    let step := onData max_chars s chunk fin
    let next := runTrace max_chars step.1 rest
    (next.1, step.2.toList ++ next.2)

/-- Tag each fragment of a body with its `is_last` flag: the transport
flags exactly the last fragment. -/
def markLast : List (List UInt8) → List (List UInt8 × Bool)
  | [] => []
  | [c] => [(c, true)]
  | c :: rest => (c, false) :: markLast rest

/-- `read_paste(settings, res)`: computes
`max_chars = settings.max_paste_size / sizeof(char)`, mallocs
`max_chars + 1` bytes, news `*read_count = 0`, registers the `onData`
callback, and returns `0` — unconditionally; the malloc result
(`malloc_result`, `none` when the allocation fails) is never inspected,
a failed allocation just leaves the session with a null buffer. -/
def read_paste (settings : purrito_settings)
    (malloc_result : Option (List UInt8)) : Session × UInt8 :=
  ({ buffer := malloc_result.getD [], read_count := 0 }, 0)

/-- The error branch of the `post` handler in `purr`: taken when
`perr = read_paste(settings, res)` is nonzero, in which case a warning
is printed and the abort handler is never attached. -/
def purr_warn_branch (settings : purrito_settings)
    (malloc_result : Option (List UInt8)) : Bool :=
  (read_paste settings malloc_result).2 != 0

/-- A full paste upload: a fresh session (buffer contents `init` are
whatever malloc returned), the body delivered as `frags` in order with
the last fragment flagged, and each buffer handed to `save_buffer`
mapped to the bytes actually written to its file. -/
def stored_contents (max_chars : Nat) (init : List UInt8)
    (frags : List (List UInt8)) (settings : purrito_settings)
    (rng : Nat → Nat) (write_err : Int) : List (List UInt8) :=
  ((runTrace max_chars { buffer := init, read_count := 0 }
    (markLast frags)).2).map
    (fun buf => (save_buffer buf settings rng write_err).written)

/-- ASCII bytes of a string literal, for concrete test inputs. -/
def bytes (s : String) : List UInt8 :=
  s.data.map (fun c => UInt8.ofNat c.toNat)

/-- A concrete configuration for counterexamples and witnesses. -/
def exampleSettings : purrito_settings :=
  { max_paste_size := 10
  , slug_size := 5
  , storage_directory := "/var/www/purrito"
  , domain := "https://bsd.ac/"
  , bind_port := 42069 }

/-! Helper lemmas shared by the claim theorems. -/

theorem copy_size_le_chunk (max_chars read_count chunk_len : Nat) :
    copy_size max_chars read_count chunk_len ≤ chunk_len := by
  unfold copy_size
  omega

theorem copy_size_add_le (max_chars read_count chunk_len : Nat)
    (h : read_count ≤ max_chars) :
    read_count + copy_size max_chars read_count chunk_len ≤ max_chars := by
  unfold copy_size
  omega

theorem copy_size_cast (max_chars read_count chunk_len : Nat) :
    (copy_size max_chars read_count chunk_len : Int) =
      max 0 (min ((max_chars : Int) - (read_count : Int)) (chunk_len : Int)) := by
  unfold copy_size
  omega

theorem alphanum_length : alphanum.length = 36 := by decide

theorem random_slug_length (slug_size : Nat) (rng : Nat → Nat) :
    (random_slug slug_size rng).length = slug_size := by
  simp [random_slug, String.length]

theorem random_slug_chars (slug_size : Nat) (rng : Nat → Nat) :
    ∀ c ∈ (random_slug slug_size rng).data, c ∈ alphanum := by
  intro c hc
  simp only [random_slug] at hc
  obtain ⟨i, _, hi⟩ := List.mem_map.mp hc
  have hlt : rng i % alphanum.length < alphanum.length := by
    have : 0 < alphanum.length := by rw [alphanum_length]; omega
    exact Nat.mod_lt _ this
  rw [List.getD_eq_getElem?_getD, List.getElem?_eq_getElem hlt] at hi
  simp only [← hi]
  exact List.getElem_mem hlt

theorem copyInto_length (buffer chunk : List UInt8) (rc csz : Nat)
    (hc : csz ≤ chunk.length) (hs : rc + csz ≤ buffer.length) :
    (copyInto buffer rc chunk csz).length = buffer.length := by
  simp only [copyInto, List.length_append, List.length_take, List.length_drop]
  omega

theorem copyInto_getElem_copied (buffer chunk : List UInt8) (rc csz : Nat)
    (hc : csz ≤ chunk.length) (hs : rc + csz ≤ buffer.length)
    (i : Nat) (hi : i < csz) :
    (copyInto buffer rc chunk csz)[rc + i]? = chunk[i]? := by
  have hA : (buffer.take rc).length = rc := by
    rw [List.length_take]; omega
  have hB : (chunk.take csz).length = csz := by
    rw [List.length_take]; omega
  unfold copyInto
  rw [List.getElem?_append_left
    (show rc + i < (buffer.take rc ++ chunk.take csz).length by
      rw [List.length_append, hA, hB]; omega)]
  rw [List.getElem?_append_right (by rw [hA]; omega)]
  rw [hA]
  have hidx : rc + i - rc = i := by omega
  rw [hidx, List.getElem?_take_of_lt hi]

theorem copyInto_getElem_low (buffer chunk : List UInt8) (rc csz : Nat)
    (hs : rc + csz ≤ buffer.length)
    (j : Nat) (hj : j < rc) :
    (copyInto buffer rc chunk csz)[j]? = buffer[j]? := by
  have hA : (buffer.take rc).length = rc := by
    rw [List.length_take]; omega
  unfold copyInto
  rw [List.getElem?_append_left
    (show j < (buffer.take rc ++ chunk.take csz).length by
      rw [List.length_append, hA]; omega)]
  rw [List.getElem?_append_left (by rw [hA]; omega)]
  rw [List.getElem?_take_of_lt hj]

theorem copyInto_getElem_high (buffer chunk : List UInt8) (rc csz : Nat)
    (hc : csz ≤ chunk.length) (hs : rc + csz ≤ buffer.length)
    (j : Nat) (hj : rc + csz ≤ j) :
    (copyInto buffer rc chunk csz)[j]? = buffer[j]? := by
  have hA : (buffer.take rc).length = rc := by
    rw [List.length_take]; omega
  have hB : (chunk.take csz).length = csz := by
    rw [List.length_take]; omega
  unfold copyInto
  rw [List.getElem?_append_right
    (show (buffer.take rc ++ chunk.take csz).length ≤ j by
      rw [List.length_append, hA, hB]; omega)]
  rw [List.length_append, hA, hB, List.getElem?_drop]
  have hidx : rc + csz + (j - (rc + csz)) = j := by omega
  rw [hidx]

theorem onData_false_eq (max_chars : Nat) (s : Session) (chunk : List UInt8) :
    onData max_chars s chunk false =
      ({ buffer := copyInto s.buffer s.read_count chunk
            (copy_size max_chars s.read_count chunk.length),
         read_count := s.read_count }, none) := rfl

theorem onData_true_eq (max_chars : Nat) (s : Session) (chunk : List UInt8) :
    onData max_chars s chunk true =
      ({ buffer := (copyInto s.buffer s.read_count chunk
            (copy_size max_chars s.read_count chunk.length)).set
            (copy_size max_chars s.read_count chunk.length + s.read_count) 0,
         read_count := copy_size max_chars s.read_count chunk.length +
           s.read_count },
       some ((copyInto s.buffer s.read_count chunk
            (copy_size max_chars s.read_count chunk.length)).set
            (copy_size max_chars s.read_count chunk.length + s.read_count)
            0)) := rfl

theorem onData_read_count_le (max_chars : Nat) (s : Session)
    (chunk : List UInt8) (fin : Bool) (h : s.read_count ≤ max_chars) :
    (onData max_chars s chunk fin).1.read_count ≤ max_chars := by
  cases fin
  · rw [onData_false_eq]
    exact h
  · rw [onData_true_eq]
    have := copy_size_add_le max_chars s.read_count chunk.length h
    simp only []
    omega

theorem runTrace_read_count_le (max_chars : Nat)
    (trace : List (List UInt8 × Bool)) :
    ∀ s : Session, s.read_count ≤ max_chars →
      (runTrace max_chars s trace).1.read_count ≤ max_chars := by
  induction trace with
  | nil =>
    intro s h
    exact h
  | cons e rest ih =>
    intro s h
    obtain ⟨chunk, fin⟩ := e
    exact ih _ (onData_read_count_le max_chars s chunk fin h)

theorem onData_none_of_not_final (max_chars : Nat) (s : Session)
    (chunk : List UInt8) : (onData max_chars s chunk false).2 = none := by
  rw [onData_false_eq]

theorem runTrace_no_save_of_no_final (max_chars : Nat)
    (trace : List (List UInt8 × Bool)) :
    ∀ s : Session, (∀ e ∈ trace, e.2 = false) →
      (runTrace max_chars s trace).2 = [] := by
  induction trace with
  | nil =>
    intro s _
    rfl
  | cons e rest ih =>
    intro s h
    obtain ⟨chunk, fin⟩ := e
    have hf : fin = false := h (chunk, fin) (List.mem_cons_self _ _)
    subst hf
    simp only [runTrace, onData_none_of_not_final, Option.toList_none,
      List.nil_append]
    exact ih _ (fun e he => h e (List.mem_cons_of_mem _ he))

/-! The claim theorems. -/

/-- Claim C1 fails on the code: with `max_paste_size = 10` and
fragments `"hello"` then `" world!!!"` (final flag on the second), the
stored content is `" world!!!"` — the last fragment alone, truncated to
the cap — and not `"hello worl"`, because `*read_count` is advanced
only under `if (is_last)`, so every fragment is copied at offset 0 and
non-final fragments are overwritten. -/
theorem stored_content_scenario1_is_last_fragment :
    stored_contents 10 (List.replicate 11 65)
      [bytes "hello", bytes " world!!!"] exampleSettings (fun _ => 0) 0 =
      [bytes " world!!!"] ∧
    [bytes " world!!!"] ≠ [bytes "hello worl"] := by
  constructor
  · rfl
  · decide

/-- Claim C2 fails on the code: with `max_paste_size = 100` and
fragments `"ab"` then `"cd"` (final flag on the second, total length 4
well below the cap), the stored content is `"cd"`, not the
concatenation `"abcd"`: `*read_count` stays 0 on non-final fragments,
so `"cd"` overwrites `"ab"` at offset 0. -/
theorem stored_content_below_cap_last_fragment :
    stored_contents 100 (List.replicate 101 65) [bytes "ab", bytes "cd"]
      exampleSettings (fun _ => 0) 0 = [bytes "cd"] ∧
    [bytes "cd"] ≠ [bytes "abcd"] := by
  constructor
  · rfl
  · decide

/-- Claim C3: one `onData` invocation copies exactly
`clamp(max_chars - read_count, 0, chunk.length)` bytes of the fragment
into the buffer at offset `read_count` (bytes of the fragment beyond
that are dropped and the rest of the buffer is untouched); it advances
`read_count` and NUL-terminates the buffer only when `is_last` is true,
and leaves `read_count` unchanged and the session open on a non-final
fragment. -/
theorem onData_copy_and_bookkeeping (max_chars : Nat) (s : Session)
    (chunk : List UInt8) (is_last : Bool)
    (hrc : s.read_count ≤ max_chars)
    (hlen : s.buffer.length = max_chars + 1) :
    ((copy_size max_chars s.read_count chunk.length : Int) =
      max 0 (min ((max_chars : Int) - (s.read_count : Int))
        (chunk.length : Int))) ∧
    (∀ i < copy_size max_chars s.read_count chunk.length,
      ((onData max_chars s chunk is_last).1.buffer)[s.read_count + i]? =
        chunk[i]?) ∧
    (∀ j < s.read_count,
      ((onData max_chars s chunk is_last).1.buffer)[j]? =
        s.buffer[j]?) ∧
    (∀ j, s.read_count + copy_size max_chars s.read_count chunk.length <
        j →
      ((onData max_chars s chunk is_last).1.buffer)[j]? =
        s.buffer[j]?) ∧
    (is_last = true →
      (onData max_chars s chunk is_last).1.read_count =
        copy_size max_chars s.read_count chunk.length + s.read_count ∧
      ((onData max_chars s chunk is_last).1.buffer)[
          copy_size max_chars s.read_count chunk.length +
            s.read_count]? = some 0 ∧
      (onData max_chars s chunk is_last).2 =
        some (onData max_chars s chunk is_last).1.buffer) ∧
    (is_last = false →
      (onData max_chars s chunk is_last).1.read_count = s.read_count ∧
      (onData max_chars s chunk is_last).2 = none) := by
  have hc := copy_size_le_chunk max_chars s.read_count chunk.length
  have hadd := copy_size_add_le max_chars s.read_count chunk.length hrc
  have hs : s.read_count + copy_size max_chars s.read_count chunk.length ≤
      s.buffer.length := by omega
  refine ⟨copy_size_cast max_chars s.read_count chunk.length,
    ?_, ?_, ?_, ?_, ?_⟩
  · intro i hi
    cases is_last
    · rw [onData_false_eq]
      exact copyInto_getElem_copied s.buffer chunk s.read_count _ hc hs i hi
    · rw [onData_true_eq]
      dsimp only
      rw [List.getElem?_set_ne (by omega)]
      exact copyInto_getElem_copied s.buffer chunk s.read_count _ hc hs i hi
  · intro j hj
    cases is_last
    · rw [onData_false_eq]
      exact copyInto_getElem_low s.buffer chunk s.read_count _ hs j hj
    · rw [onData_true_eq]
      dsimp only
      rw [List.getElem?_set_ne (by omega)]
      exact copyInto_getElem_low s.buffer chunk s.read_count _ hs j hj
  · intro j hj
    cases is_last
    · rw [onData_false_eq]
      exact copyInto_getElem_high s.buffer chunk s.read_count _ hc hs j
        (by omega)
    · rw [onData_true_eq]
      dsimp only
      rw [List.getElem?_set_ne (by omega)]
      exact copyInto_getElem_high s.buffer chunk s.read_count _ hc hs j
        (by omega)
  · intro hfin
    subst hfin
    rw [onData_true_eq]
    refine ⟨rfl, ?_, rfl⟩
    dsimp only
    rw [List.getElem?_set_self]
    rw [copyInto_length s.buffer chunk s.read_count _ hc hs]
    omega
  · intro hfin
    subst hfin
    rw [onData_false_eq]
    exact ⟨rfl, rfl⟩

/-- Witness for claim C3 at a concrete input: `max_chars = 10`, a fresh
session over an 11-byte buffer, final fragment `"hi"`. -/
theorem onData_copy_and_bookkeeping_witness :
    (onData 10 { buffer := List.replicate 11 65, read_count := 0 }
      (bytes "hi") true).1.read_count =
      copy_size 10 0 (bytes "hi").length + 0 ∧
    ((onData 10 { buffer := List.replicate 11 65, read_count := 0 }
      (bytes "hi") true).1.buffer)[0 + 0]? = (bytes "hi")[0]? := by
  have h := onData_copy_and_bookkeeping 10
    { buffer := List.replicate 11 65, read_count := 0 } (bytes "hi") true
    (by decide) (by decide)
  exact ⟨(h.2.2.2.2.1 rfl).1, h.2.1 0 (by decide)⟩

/-- Counterexample to claim C4: when the allocation fails
(`malloc_result = none`), `read_paste` still returns `0`, so the
caller's warn-and-abandon branch is not taken and no `AllocationError`
is ever reported. -/
theorem read_paste_alloc_failure_not_reported :
    (read_paste exampleSettings none).2 = 0 ∧
    purr_warn_branch exampleSettings none = false :=
  ⟨rfl, rfl⟩

/-- Claim C4 (amended): `read_paste` never inspects the malloc result;
its return value is `0` whether or not the allocation succeeded, so an
allocation failure is not reported to the caller, the session is not
abandoned on that account, and no warning is logged. -/
theorem read_paste_return_independent_of_alloc
    (settings : purrito_settings) (m m' : Option (List UInt8)) :
    (read_paste settings m).2 = (read_paste settings m').2 ∧
    (read_paste settings m).2 = 0 :=
  ⟨rfl, rfl⟩

/-- Claim C5: `save_buffer` returns `settings.domain ++ slug ++ "\n"`
with a slug of length `settings.slug_size`, and the response does not
depend on the write status — a failed write (negative status) only sets
the warning flag. -/
theorem save_buffer_response_shape (buffer : List UInt8)
    (settings : purrito_settings) (rng : Nat → Nat) (write_err : Int) :
    (save_buffer buffer settings rng write_err).response =
      settings.domain ++ random_slug settings.slug_size rng ++ "\n" ∧
    (random_slug settings.slug_size rng).length = settings.slug_size ∧
    (save_buffer buffer settings rng write_err).response =
      (save_buffer buffer settings rng (-1)).response :=
  ⟨rfl, random_slug_length settings.slug_size rng, rfl⟩

/-- Counterexample to claim C6: a completed buffer containing a NUL
byte is not stored intact — `fprintf(output_file, "%s", buffer)` stops
at the first NUL byte, so the buffer `[97, 0, 98]` is stored as the
single byte `[97]`. -/
theorem save_buffer_truncates_at_nul :
    (save_buffer [97, 0, 98] exampleSettings (fun _ => 0) 0).written =
      [97] ∧
    (save_buffer [97, 0, 98] exampleSettings (fun _ => 0) 0).written ≠
      [97, 0, 98] := by
  constructor
  · rfl
  · decide

/-- Claim C6 (amended): `save_buffer` writes the bytes of the buffer up
to (excluding) its first NUL byte; for every buffer with no NUL byte
(the empty buffer included) the file content written is exactly the
buffer. -/
theorem save_buffer_writes_nul_free_buffer (buffer : List UInt8)
    (settings : purrito_settings) (rng : Nat → Nat) (write_err : Int)
    (h : ∀ b ∈ buffer, b ≠ 0) :
    (save_buffer buffer settings rng write_err).written = buffer := by
  simp only [save_buffer]
  rw [List.takeWhile_eq_self_iff.mpr]
  intro b hb
  simpa using h b hb

/-- Witness for claim C6 (amended) on the NUL-free buffer `"abc"`. -/
theorem save_buffer_writes_nul_free_buffer_witness :
    (save_buffer (bytes "abc") exampleSettings (fun _ => 0) 0).written =
      bytes "abc" :=
  save_buffer_writes_nul_free_buffer (bytes "abc") exampleSettings
    (fun _ => 0) 0 (by decide)

/-- Claim C7: from any session satisfying `read_count ≤ max_chars` (a
fresh session in particular), delivering any trace of fragments keeps
`read_count ≤ max_chars` — so the invariant holds before and after
every append step — and a buffer is handed to `save_buffer` only by an
invocation whose final flag is set. -/
theorem session_invariant (max_chars : Nat) (s : Session)
    (trace : List (List UInt8 × Bool)) (h : s.read_count ≤ max_chars) :
    (runTrace max_chars s trace).1.read_count ≤ max_chars ∧
    (∀ (t : Session) (chunk : List UInt8) (fin : Bool),
      (onData max_chars t chunk fin).2.isSome → fin = true) := by
  refine ⟨runTrace_read_count_le max_chars trace s h, ?_⟩
  intro t chunk fin hsome
  cases fin
  · rw [onData_none_of_not_final] at hsome
    simp at hsome
  · rfl

/-- Witness for claim C7: concrete scenario 1's trace from a fresh
session. -/
theorem session_invariant_witness :
    (runTrace 10 { buffer := List.replicate 11 65, read_count := 0 }
      (markLast [bytes "hello", bytes " world!!!"])).1.read_count ≤
      10 :=
  (session_invariant 10
    { buffer := List.replicate 11 65, read_count := 0 }
    (markLast [bytes "hello", bytes " world!!!"]) (by decide)).1

/-- Claim C9: if every delivered fragment has its final flag unset (the
session was aborted before the final fragment arrived), no buffer is
ever handed to `save_buffer` and no response is produced — no partial
file is written for that session. -/
theorem no_write_before_final (max_chars : Nat) (s : Session)
    (trace : List (List UInt8 × Bool))
    (h : ∀ e ∈ trace, e.2 = false) :
    (runTrace max_chars s trace).2 = [] :=
  runTrace_no_save_of_no_final max_chars trace s h

/-- Witness for claim C9: two non-final fragments, then abort. -/
theorem no_write_before_final_witness :
    (runTrace 10 { buffer := List.replicate 11 65, read_count := 0 }
      [(bytes "he", false), (bytes "llo", false)]).2 = [] :=
  no_write_before_final 10
    { buffer := List.replicate 11 65, read_count := 0 }
    [(bytes "he", false), (bytes "llo", false)] (by decide)

/-- Claim C8: for every length `n` and every random stream,
`random_slug` returns a string of length exactly `n` all of whose
characters come from the 36-character alphabet `[0-9a-z]`. -/
theorem random_slug_shape (n : Nat) (rng : Nat → Nat) :
    (random_slug n rng).length = n ∧
    alphanum.length = 36 ∧
    ∀ c ∈ (random_slug n rng).data, c ∈ alphanum :=
  ⟨random_slug_length n rng, alphanum_length, random_slug_chars n rng⟩

/-- Claim C10: `read_paste` returns `0` on every input, so the nonzero
error branch in the `post` handler of `purr` (which would log a warning
and skip attaching the abort handler) is unreachable; no session-setup
failure is ever reported through this return value. -/
theorem read_paste_always_returns_zero (settings : purrito_settings)
    (malloc_result : Option (List UInt8)) :
    (read_paste settings malloc_result).2 = 0 ∧
    purr_warn_branch settings malloc_result = false :=
  ⟨rfl, rfl⟩

end Purrito
